import Mathlib

/-!
Verification of the map-stack tile backend.

This file gives a shallow embedding of the tile pipeline of the repository
(bbox parsing and filtering, query clamping, grid clustering, slippy-map tile
addressing, the persisted tile cache, the single-flight job registry and the
weak-ETag builder) and proves the specified properties about it.

Modelling conventions:
* JavaScript numbers are embedded as exact rationals (and as real numbers for
  the transcendental latitude transform); number parsing covers finite
  decimal and hexadecimal literals.
* JSON values are embedded as an inductive JVal; absence of a field plays the
  role of undefined, and operations that would throw a TypeError are modelled
  by returning none from an Option-valued function.
* The asynchronous single-flight registry is embedded as an explicit state
  machine whose atomic steps are the run and settle events of the event loop.
-/

namespace MapStack

/-! Basic JS-style helpers over characters and strings. -/

/-- Decimal digit test, as in character classes used by Number parsing. -/
def isDecDigit (c : Char) : Bool := ('0' ≤ c && c ≤ '9')

/-- Hexadecimal digit test. -/
def isHexDigit (c : Char) : Bool :=
  ('0' ≤ c && c ≤ '9') || ('a' ≤ c && c ≤ 'f') || ('A' ≤ c && c ≤ 'F')

/-- Whitespace characters stripped by String.prototype.trim (ASCII subset). -/
def isJsWhitespace (c : Char) : Bool :=
  c = ' ' || c = '\t' || c = '\n' || c = '\r'

/-- Model of String.prototype.trim over the character list of a string. -/
def jsTrim (cs : List Char) : List Char :=
  ((cs.dropWhile isJsWhitespace).reverse.dropWhile isJsWhitespace).reverse

/-- Model of String.prototype.split with a single-character separator:
"a,b".split(",") gives ["a","b"] and "".split(",") gives [""]. -/
def jsSplit (sep : Char) (cs : List Char) : List (List Char) :=
  match cs with
  | [] => [[]]
  | c :: rest =>
    match jsSplit sep rest with
    | [] => [[]]
    | part :: parts => if c = sep then [] :: part :: parts else (c :: part) :: parts

/-- Model of Array.prototype.join(",") for a list of strings. -/
def jsJoin (sep : Char) : List (List Char) → List Char
  | [] => []
  | [p] => p
  | p :: rest => p ++ sep :: jsJoin sep rest

/-- Numeric value of a list of decimal digit characters. -/
def decDigitsToNat (cs : List Char) : ℕ :=
  cs.foldl (fun a c => 10 * a + (c.toNat - 48)) 0

/-- Numeric value of a single hexadecimal digit character. -/
def hexDigitToNat (c : Char) : ℕ :=
  if c ≤ '9' then c.toNat - 48
  else if c ≤ 'F' then c.toNat - 55
  else c.toNat - 87

/-- Numeric value of a list of hexadecimal digit characters. -/
def hexDigitsToNat (cs : List Char) : ℕ :=
  cs.foldl (fun a c => 16 * a + hexDigitToNat c) 0

/-- Parse of the optional exponent suffix of a decimal literal: given the
mantissa as an integer numerator over a power-of-ten denominator, returns the
final rational, or none when the suffix is malformed. -/
def applyExponent (num : ℤ) (den : ℕ) (cs : List Char) : Option ℚ :=
  match cs with
  | [] => some (mkRat num den)
  | e :: rest =>
    if e = 'e' ∨ e = 'E' then
      let (negExp, digs) :=
        match rest with
        | '-' :: ds => (true, ds)
        | '+' :: ds => (false, ds)
        | ds => (false, ds)
      if digs ≠ [] ∧ digs.all isDecDigit then
        let ex := decDigitsToNat digs
        some (if negExp then mkRat num (den * 10 ^ ex) else mkRat (num * 10 ^ ex) den)
      else none
    else none

/-- Parse of an unsigned decimal literal (digits, optional fraction, optional
exponent), as accepted by the JS Number conversion. -/
def parseDecimalLiteral (sign : Bool) (cs : List Char) : Option ℚ :=
  let intDigs := cs.takeWhile isDecDigit
  let rest := cs.dropWhile isDecDigit
  match rest with
  | '.' :: rest2 =>
    let fracDigs := rest2.takeWhile isDecDigit
    let rest3 := rest2.dropWhile isDecDigit
    if intDigs = [] ∧ fracDigs = [] then none
    else
      let digits := decDigitsToNat (intDigs ++ fracDigs)
      let num : ℤ := if sign then -(digits : ℤ) else (digits : ℤ)
      applyExponent num (10 ^ fracDigs.length) rest3
  | _ =>
    if intDigs = [] then none
    else
      let digits := decDigitsToNat intDigs
      let num : ℤ := if sign then -(digits : ℤ) else (digits : ℤ)
      applyExponent num 1 rest

/-- Model of the JS Number(string) conversion on finite literals: trims
whitespace, maps the empty string to 0, accepts signed decimal literals with
fraction and exponent and unsigned 0x hexadecimal literals; none stands for
NaN.  (The non-finite Infinity literals are outside the model.) -/
def jsNumber (cs : List Char) : Option ℚ :=
  let t := jsTrim cs
  match t with
  | [] => some (mkRat 0 1)
  | '0' :: 'x' :: hs =>
    if hs ≠ [] ∧ hs.all isHexDigit then some (mkRat (hexDigitsToNat hs) 1) else none
  | '0' :: 'X' :: hs =>
    if hs ≠ [] ∧ hs.all isHexDigit then some (mkRat (hexDigitsToNat hs) 1) else none
  | '-' :: ds => parseDecimalLiteral true ds
  | '+' :: ds => parseDecimalLiteral false ds
  | ds => parseDecimalLiteral false ds

/-- Model of the value of an express query parameter: undefined, a single
string, or an array of strings. -/
inductive QVal where
  | undef
  | str (s : String)
  | arr (xs : List String)
deriving DecidableEq

/-- Truthiness of a query value: undefined and the empty string are falsy,
any array (even empty) is truthy. -/
def QVal.truthy : QVal → Bool
  | .undef => false
  | .str s => s.data ≠ []
  | .arr _ => true

/-- The string that parseBbox works on: arrays are joined with commas. -/
def QVal.joined : QVal → List Char
  | .undef => []
  | .str s => s.data
  | .arr xs => jsJoin ',' (xs.map String.data)

/-- First element of a query value, as selected by parseLimit and parseZoom
(value[0] for an array, the value itself for a string); none is undefined,
and Number(undefined) is NaN. -/
def QVal.first : QVal → Option (List Char)
  | .undef => none
  | .str s => some s.data
  | .arr [] => none
  | .arr (x :: _) => some x.data

/-! JSON-like values, used for feature properties and persisted cache records. -/

/-- A JSON value as produced by JSON.parse: null, booleans, (finite) numbers,
strings, arrays and objects with ordered fields. -/
inductive JVal where
  | jnull
  | jbool (b : Bool)
  | jnum (q : ℚ)
  | jstr (s : String)
  | jarr (elems : List JVal)
  | jobj (fields : List (String × JVal))

/-- Field access on an object value, insertion order first match; none plays
the role of undefined (missing field, or non-object receiver other than null;
access on null throws and is handled separately where it matters). -/
def jsField (v : JVal) (k : String) : Option JVal :=
  match v with
  | .jobj fields => lookupField fields k
  | _ => none
where
  /-- First binding of a key in an object field list. -/
  lookupField : List (String × JVal) → String → Option JVal
    | [], _ => none
    | (k', v') :: rest, k => if k' = k then some v' else lookupField rest k

/-- Property assignment obj[k] = v on an object: replaces the first binding
in place, or appends a new binding, exactly as JS property insertion order
behaves. -/
def jsSetField (fields : List (String × JVal)) (k : String) (v : JVal) :
    List (String × JVal) :=
  match fields with
  | [] => [(k, v)]
  | (k', v') :: rest =>
    if k' = k then (k', v) :: rest else (k', v') :: jsSetField rest k v

/-! The geo data model (src/apps/backend/src/types/geo.ts). -/

/-- A point feature: [lon, lat] coordinates plus an open property map. -/
structure GeoFeature where
  lon : ℚ
  lat : ℚ
  properties : List (String × JVal)

/-- A parsed bounding box [minLon, minLat, maxLon, maxLat]. -/
structure Bbox where
  minLon : ℚ
  minLat : ℚ
  maxLon : ℚ
  maxLat : ℚ
deriving DecidableEq

namespace GeoRoutes

/-- Model of parseBbox from GeoRoutes.ts: joins arrays with commas, splits on
commas, converts each trimmed part with Number, DISCARDS the NaN parts before
counting, requires exactly four numeric parts, and rejects inverted boxes. -/
def parseBbox (bboxRaw : QVal) : Option Bbox :=
  if !bboxRaw.truthy then none
  else
    let value := bboxRaw.joined
    let parts := (jsSplit ',' value).filterMap (fun part => jsNumber (jsTrim part))
    match parts with
    | [minLon, minLat, maxLon, maxLat] =>
      if minLon > maxLon ∨ minLat > maxLat then none
      else some ⟨minLon, minLat, maxLon, maxLat⟩
    | _ => none

/-- Model of filterByBbox from GeoRoutes.ts: no bbox means the input list is
returned as is; otherwise keep the features whose point lies in the closed
box. -/
def filterByBbox (features : List GeoFeature) (bbox : Option Bbox) :
    List GeoFeature :=
  match bbox with
  | none => features
  | some b =>
    features.filter fun f =>
      f.lon ≥ b.minLon && f.lon ≤ b.maxLon && f.lat ≥ b.minLat && f.lat ≤ b.maxLat

/-- Model of parseLimit from GeoRoutes.ts: Number of the first value, and when
finite, max(1, min(5000, floor(num))), otherwise the given default. -/
def parseLimit (value : QVal) (defaultValue : ℚ) : ℚ :=
  match value.first.bind jsNumber with
  | some num => max 1 (min 5000 ((⌊num⌋ : ℤ) : ℚ))
  | none => defaultValue

/-- Model of parseZoom from GeoRoutes.ts: Number of the first value, and when
finite, min(22, max(0, zoom)) with no rounding, otherwise 8. -/
def parseZoom (value : QVal) : ℚ :=
  match value.first.bind jsNumber with
  | some zoom => min 22 (max 0 zoom)
  | none => 8

/-- Model of gridSizeForZoom from GeoRoutes.ts. -/
def gridSizeForZoom (zoom : ℚ) : ℚ :=
  if zoom ≥ 14 then mkRat 2 100
  else if zoom ≥ 12 then mkRat 5 100
  else if zoom ≥ 10 then mkRat 1 10
  else if zoom ≥ 8 then mkRat 25 100
  else if zoom ≥ 6 then mkRat 5 10
  else if zoom ≥ 4 then 1
  else if zoom ≥ 2 then 2
  else 4

end GeoRoutes

namespace CitiesV0

/-- Model of parseBbox from the unnamed cities route module
(src/unnamed/part_000): same split and Number conversion, but the part count
is checked BEFORE NaN parts are discarded, and any NaN part rejects the whole
string. -/
def parseBbox (bboxRaw : QVal) : Option Bbox :=
  if !bboxRaw.truthy then none
  else
    let value := bboxRaw.joined
    let parts := (jsSplit ',' value).map (fun part => jsNumber (jsTrim part))
    if parts.length ≠ 4 ∨ parts.any (fun num => num.isNone) then none
    else
      match parts with
      | [some minLon, some minLat, some maxLon, some maxLat] =>
        if minLon > maxLon ∨ minLat > maxLat then none
        else some ⟨minLon, minLat, maxLon, maxLat⟩
      | _ => none

end CitiesV0

/-! Decimal rendering of integers, modelling the JS template interpolation of
integral numbers (used for cluster ids, cell keys and ETags). -/

/-- The character of a single decimal digit. -/
def digitChar : ℕ → Char
  | 0 => '0' | 1 => '1' | 2 => '2' | 3 => '3' | 4 => '4'
  | 5 => '5' | 6 => '6' | 7 => '7' | 8 => '8' | _ => '9'

/-- Fuel-indexed most-significant-first decimal digits of a natural number;
structural in the fuel so that the kernel can evaluate it. -/
def natReprAux : ℕ → ℕ → List Char
  | 0, _ => []
  | fuel + 1, n =>
    if n < 10 then [digitChar n] else natReprAux fuel (n / 10) ++ [digitChar (n % 10)]

/-- Decimal digits of a natural number. -/
def natReprChars (n : ℕ) : List Char := natReprAux (n + 1) n

/-- Decimal rendering of an integer, with a leading minus sign when negative. -/
def intReprChars (i : ℤ) : List Char :=
  if i < 0 then '-' :: natReprChars (-i).toNat else natReprChars i.toNat

/-! Insertion-ordered string-keyed maps, the model of a JS Map (and of plain
objects used as histograms): set updates the first binding in place or
appends, preserving insertion order exactly as JS does. -/

/-- Value of a key in an insertion-ordered map. -/
def jsMapGet {α : Type} (m : List (String × α)) (k : String) : Option α :=
  match m with
  | [] => none
  | (k', v) :: rest => if k' = k then some v else jsMapGet rest k

/-- Map.set: replace the first binding in place, else append. -/
def jsMapSet {α : Type} (m : List (String × α)) (k : String) (v : α) :
    List (String × α) :=
  match m with
  | [] => [(k, v)]
  | (k', v') :: rest =>
    if k' = k then (k', v) :: rest else (k', v') :: jsMapSet rest k v

/-- Map.delete: drop the bindings of a key. -/
def jsMapDelete {α : Type} (m : List (String × α)) (k : String) :
    List (String × α) :=
  m.filter fun p => p.1 ≠ k

/-- Array.prototype.map with the index argument, as used by the cluster
output mapping .map((cluster, idx) => ...). -/
def mapWithIdx {α β : Type} (f : ℕ → α → β) : ℕ → List α → List β
  | _, [] => []
  | i, x :: xs => f i x :: mapWithIdx f (i + 1) xs

namespace GeoRoutes

/-! The grid clustering engine of getPoiClusters (GeoRoutes.ts lines 190-297),
restricted to its data computation; the surrounding HTTP envelope is route
glue. -/

/-- Rendering of a scalar JSON value by the JS String() conversion; non-integral
numbers and nested containers are abstracted (category values are strings in
practice, and no verified property depends on this rendering). -/
def scalarToString : JVal → String
  | .jstr s => s
  | .jbool true => "true"
  | .jbool false => "false"
  | .jnull => "null"
  | .jnum q => String.mk (if q.den = 1 then intReprChars q.num else
      intReprChars q.num ++ '/' :: natReprChars q.den)
  | .jarr _ => ""
  | .jobj _ => "[object Object]"

/-- The category of a feature: String(properties.category ?? "unknown"); the
nullish coalescing fires on a missing field and on an explicit null. -/
def categoryOf (f : GeoFeature) : String :=
  match jsMapGet f.properties "category" with
  | none => "unknown"
  | some .jnull => "unknown"
  | some v => scalarToString v

/-- A per-cell accumulator, as in the Cluster interface local to
getPoiClusters. -/
structure Cluster where
  id : String
  count : ℕ
  sumLon : ℚ
  sumLat : ℚ
  minLon : ℚ
  minLat : ℚ
  maxLon : ℚ
  maxLat : ℚ
  categories : List (String × ℕ)

/-- The string key of a grid cell, the template interpolation of the pair. -/
def cellKey (x y : ℤ) : String :=
  String.mk (intReprChars x ++ ':' :: intReprChars y)

/-- One histogram update: categories[c] = (categories[c] ?? 0) + 1. -/
def bumpCategory (cats : List (String × ℕ)) (name : String) :
    List (String × ℕ) :=
  match jsMapGet cats name with
  | some n => jsMapSet cats name (n + 1)
  | none => jsMapSet cats name 1

/-- The per-feature cluster update of the loop body: increment the count, add
the coordinates to the sums, widen the min/max bbox, bump the histogram. -/
def bumpCluster (c : Cluster) (f : GeoFeature) : Cluster :=
  { c with
    count := c.count + 1
    sumLon := c.sumLon + f.lon
    sumLat := c.sumLat + f.lat
    minLon := min c.minLon f.lon
    minLat := min c.minLat f.lat
    maxLon := max c.maxLon f.lon
    maxLat := max c.maxLat f.lat
    categories := bumpCategory c.categories (categoryOf f) }

/-- The fresh accumulator for a cell.  The source seeds minima at +Infinity and
maxima at -Infinity and immediately folds in the first feature; with exact
rationals in place of floats the infinite sentinels are replaced by seeding the
min/max fields with that first feature's coordinates, which yields the same
accumulator after the first bump. -/
def freshCluster (key : String) (f : GeoFeature) : Cluster :=
  { id := key, count := 0, sumLon := 0, sumLat := 0,
    minLon := f.lon, minLat := f.lat, maxLon := f.lon, maxLat := f.lat,
    categories := [] }

/-- The grid cell a feature is assigned to: (⌊lon/cellSize⌋, ⌊lat/cellSize⌋). -/
def cellOf (cellSize : ℚ) (f : GeoFeature) : ℤ × ℤ :=
  (⌊f.lon / cellSize⌋, ⌊f.lat / cellSize⌋)

/-- The loop body of getPoiClusters: fetch or create the cell accumulator,
update it, store it back under the same key. -/
def clusterStep (cellSize : ℚ) (m : List (String × Cluster))
    (f : GeoFeature) : List (String × Cluster) :=
  let key := cellKey (cellOf cellSize f).1 (cellOf cellSize f).2
  let c :=
    match jsMapGet m key with
    | some c => c
    | none => freshCluster key f
  jsMapSet m key (bumpCluster c f)

/-- The full clustering pass over the (already bbox-filtered) feature list. -/
def buildClusters (features : List GeoFeature) (cellSize : ℚ) :
    List (String × Cluster) :=
  features.foldl (clusterStep cellSize) []

/-- An entry of top_categories. -/
structure TopCategory where
  name : String
  count : ℕ

/-- Object.entries(categories) sorted by descending count, first three. -/
def topCategoriesOf (cats : List (String × ℕ)) : List TopCategory :=
  ((cats.insertionSort fun a b => b.2 ≤ a.2).take 3).map fun p => ⟨p.1, p.2⟩

/-- The synthetic output feature emitted for one cluster. -/
structure ClusterFeature where
  id : String
  clusterKey : String
  count : ℕ
  topCategories : List TopCategory
  bboxMinLon : ℚ
  bboxMinLat : ℚ
  bboxMaxLon : ℚ
  bboxMaxLat : ℚ
  zoom : ℚ
  cellSizeDeg : ℚ
  lon : ℚ
  lat : ℚ

/-- The output mapping of one cluster at its position in the truncated sorted
list: centroid coordinates are the coordinate sums divided by the count. -/
def clusterToFeature (zoom cellSize : ℚ) (idx : ℕ) (c : Cluster) :
    ClusterFeature :=
  { id := String.mk ("cluster_".data ++ natReprChars idx)
    clusterKey := c.id
    count := c.count
    topCategories := topCategoriesOf c.categories
    bboxMinLon := c.minLon
    bboxMinLat := c.minLat
    bboxMaxLon := c.maxLon
    bboxMaxLat := c.maxLat
    zoom := zoom
    cellSizeDeg := cellSize
    lon := c.sumLon / (c.count : ℚ)
    lat := c.sumLat / (c.count : ℚ) }

/-- The cluster features computed by getPoiClusters: filter by bbox, cluster
on the zoom-determined grid, sort descending by count (JS sort is stable;
embedded as a stable insertion sort), truncate to the limit, and map each
cluster to its output feature. -/
def getPoiClusters (features : List GeoFeature) (bbox : Option Bbox)
    (zoom : ℚ) (limit : ℕ) : List ClusterFeature :=
  let filtered := filterByBbox features bbox
  let cellSize := gridSizeForZoom zoom
  let clusters := buildClusters filtered cellSize
  let sorted := (clusters.map Prod.snd).insertionSort fun a b => b.count ≤ a.count
  mapWithIdx (fun idx c => clusterToFeature zoom cellSize idx c) 0
    (sorted.take limit)

/-- Total feature count of an output cluster list. -/
def sumFeatureCounts (l : List ClusterFeature) : ℕ :=
  (l.map fun cf => cf.count).sum

/-- Total feature count held by a cluster map. -/
def sumClusterCounts (m : List (String × Cluster)) : ℕ :=
  (m.map fun p => p.2.count).sum

/-- The accumulator bounds maintained by the clustering loop: the coordinate
sums lie between count times the min and count times the max on both axes
(hence the centroid, the mean, lies in the bbox once the count is positive). -/
def ClusterBounds (c : Cluster) : Prop :=
  (c.count : ℚ) * c.minLon ≤ c.sumLon ∧ c.sumLon ≤ (c.count : ℚ) * c.maxLon ∧
  (c.count : ℚ) * c.minLat ≤ c.sumLat ∧ c.sumLat ≤ (c.count : ℚ) * c.maxLat

/-! Slippy-map tile addressing (GeoRoutes.ts lines 516-535).  The longitude
side is exact rational arithmetic; the latitude side goes through the inverse
Web-Mercator transform and is embedded over the reals. -/

/-- Model of tileXToLon: x / 2^z * 360 - 180. -/
def tileXToLon (x : ℚ) (z : ℕ) : ℚ := x / (2 ^ z : ℚ) * 360 - 180

/-- Model of tileYToLat: with n = π - 2πy/2^z, the latitude is
(180/π)·atan(0.5·(eⁿ - e⁻ⁿ)). -/
noncomputable def tileYToLat (y : ℚ) (z : ℕ) : ℝ :=
  let n : ℝ := Real.pi - (2 * Real.pi * (y : ℝ)) / (2 ^ z : ℝ)
  (180 / Real.pi) * Real.arctan (0.5 * (Real.exp n - Real.exp (-n)))

/-- The [minLon, minLat, maxLon, maxLat] box of a tile. -/
structure TileBbox where
  minLon : ℚ
  minLat : ℝ
  maxLon : ℚ
  maxLat : ℝ

/-- Model of tileToBbox: west/east edges from x and x+1, north/south edges
from y and y+1. -/
noncomputable def tileToBbox (z : ℕ) (x y : ℚ) : TileBbox :=
  { minLon := tileXToLon x z
    minLat := tileYToLat (y + 1) z
    maxLon := tileXToLon (x + 1) z
    maxLat := tileYToLat y z }

/-- The numeric components of a bbox query value: the comma-separated parts
whose trimmed text Number accepts, in order. -/
def numericParts (v : QVal) : List ℚ :=
  (jsSplit ',' v.joined).filterMap fun part => jsNumber (jsTrim part)

/-- The 400 guard of getPoiClusters (and getPois, getCitySummary): the bbox
query value is truthy yet parseBbox rejected it. -/
def respondsBadRequest (bboxRaw : QVal) : Bool :=
  bboxRaw.truthy && (parseBbox bboxRaw).isNone

end GeoRoutes

/-! The dataset fingerprint (PoiDatasetService.ts). -/

/-- Model of PoiDatasetInfo: the dataset version fingerprint. -/
structure PoiDatasetInfo where
  absolutePath : String
  relativePath : String
  datasetType : String
  lastModified : ℚ
  featureCount : ℕ

/-! The persisted tile cache (CityTileCache.ts; PoiTileCache in
src/unnamed/part_001 is textually the same module for the poi kind). -/

/-- Typeof-object test: typeof v === "object" holds for null, arrays and
objects. -/
def typeofObject : JVal → Bool
  | .jnull => true
  | .jarr _ => true
  | .jobj _ => true
  | _ => false

/-- JS truthiness of a JSON value. -/
def jsTruthyV : JVal → Bool
  | .jnull => false
  | .jbool b => b
  | .jnum q => q ≠ 0
  | .jstr s => s.data ≠ []
  | .jarr _ => true
  | .jobj _ => true

/-- Model of isValidTilePayload: a truthy object-typed value whose type field
is the string "FeatureCollection", whose count is a number, whose features and
bbox are arrays (bbox of length 4), and whose dataset and cache fields are
object-typed. -/
def isValidTilePayload (v : JVal) : Bool :=
  if !(jsTruthyV v && typeofObject v) then false
  else
    (match jsField v "type" with | some (.jstr s) => s = "FeatureCollection" | _ => false)
    && (match jsField v "count" with | some (.jnum _) => true | _ => false)
    && (match jsField v "features" with | some (.jarr _) => true | _ => false)
    && (match jsField v "dataset" with | some d => typeofObject d | none => false)
    && (match jsField v "cache" with | some c => typeofObject c | none => false)
    && (match jsField v "bbox" with | some (.jarr xs) => xs.length = 4 | _ => false)

/-- The mutation parsed.cache.hit = true followed by returning parsed: on an
object-valued cache field the hit binding is updated in place; on a null cache
the assignment throws (the caller catches and yields none); on an array cache
the assignment creates an expando property that is invisible to the record
model. -/
def setCacheHit (parsed : JVal) : Option JVal :=
  match parsed with
  | .jobj fields =>
    match jsMapGet fields "cache" with
    | some (.jobj cfields) =>
      some (.jobj (jsMapSet fields "cache" (.jobj (jsMapSet cfields "hit" (.jbool true)))))
    | some (.jarr xs) => some (.jobj (jsMapSet fields "cache" (.jarr xs)))
    | _ => none
  | _ => none

/-- The state of the cache file backing one tile: none is a missing file
(ENOENT), some none is content rejected by JSON.parse, some (some v) is the
parsed record. -/
def DiskFile : Type := Option (Option JVal)

/-- Model of readCityTileFromCache: every failure path of the source — the
missing file, the parse error, the shape check, the fingerprint comparison
against the current dataset info, and the TypeError thrown by the hit mutation
on a degenerate record — returns none through the surrounding try/catch; a
record passing everything is returned with cache.hit set to true. -/
def readCityTileFromCache (disk : DiskFile) (datasetInfo : PoiDatasetInfo) :
    Option JVal :=
  match disk with
  | none => none
  | some none => none
  | some (some parsed) =>
    if !isValidTilePayload parsed then none
    else
      match jsField parsed "dataset" with
      | none => none
      | some .jnull => none
      | some ds =>
        match jsField ds "relativePath" with
        | some (.jstr s) =>
          if s = datasetInfo.relativePath then
            match jsField ds "lastModified" with
            | some (.jnum q) =>
              if q = datasetInfo.lastModified then setCacheHit parsed else none
            | _ => none
          else none
        | _ => none

/-- The fingerprint comparison performed by the cache read, as a predicate on
the parsed record: the dataset field holds a relativePath string and a
lastModified number strictly equal to the current dataset info.  Field access
on a null or non-object dataset yields no match, mirroring the code paths that
return null (directly or through the try/catch). -/
def fingerprintMatches (v : JVal) (datasetInfo : PoiDatasetInfo) : Bool :=
  match jsField v "dataset" with
  | some ds =>
    (match jsField ds "relativePath" with
     | some (.jstr s) => s = datasetInfo.relativePath
     | _ => false)
    && (match jsField ds "lastModified" with
        | some (.jnum q) => q = datasetInfo.lastModified
        | _ => false)
  | none => false

/-- The dataset block embedded in a cached payload. -/
structure PayloadDataset where
  relativePath : String
  datasetType : String
  lastModified : ℚ
  totalFeatures : ℚ

/-- The cache block embedded in a cached payload. -/
structure PayloadCache where
  key : String
  generatedAt : String
  hit : Bool

/-- Model of the CityTileCachePayload record (field order of the payload
literal built in getCityTile). -/
structure TilePayload where
  z : ℚ
  x : ℚ
  y : ℚ
  bbox : Bbox
  count : ℚ
  dataset : PayloadDataset
  cache : PayloadCache
  features : List GeoFeature

/-- JSON image of a feature. -/
def featureToJVal (f : GeoFeature) : JVal :=
  .jobj [("type", .jstr "Feature"),
         ("properties", .jobj f.properties),
         ("geometry", .jobj [("type", .jstr "Point"),
                             ("coordinates", .jarr [.jnum f.lon, .jnum f.lat])])]

/-- JSON image of a payload, in the field order of the payload literal of
getCityTile (which the spread in writeCityTileToCache preserves). -/
def payloadToJVal (p : TilePayload) : JVal :=
  .jobj [("type", .jstr "FeatureCollection"),
         ("tile", .jobj [("z", .jnum p.z), ("x", .jnum p.x), ("y", .jnum p.y)]),
         ("bbox", .jarr [.jnum p.bbox.minLon, .jnum p.bbox.minLat,
                         .jnum p.bbox.maxLon, .jnum p.bbox.maxLat]),
         ("count", .jnum p.count),
         ("dataset", .jobj [("relativePath", .jstr p.dataset.relativePath),
                            ("type", .jstr p.dataset.datasetType),
                            ("lastModified", .jnum p.dataset.lastModified),
                            ("totalFeatures", .jnum p.dataset.totalFeatures)]),
         ("cache", .jobj [("key", .jstr p.cache.key),
                          ("generatedAt", .jstr p.cache.generatedAt),
                          ("hit", .jbool p.cache.hit)]),
         ("features", .jarr (p.features.map featureToJVal))]

/-- Model of writeCityTileToCache: the record persisted to disk is the payload
with cache.hit forced to false (the spread copy), serialized. -/
def writeCityTileToCache (p : TilePayload) : JVal :=
  payloadToJVal { p with cache := { p.cache with hit := false } }

/-! The single-flight job registry (TileJobRegistry in GeoRoutes.ts).  The
event loop makes each run call and each settlement callback atomic, so the
registry is embedded as a state machine over those two events.  A job is
identified by the identity of its promise, embedded as a serial number;
invocations counts the calls of the factory. -/

/-- The registry state: the in-flight map, a fresh promise id, and the number
of factory invocations so far. -/
structure RegState where
  jobs : List (String × ℕ)
  nextId : ℕ
  invocations : ℕ

namespace TileJobRegistry

/-- Model of run(key, factory): an existing in-flight job is returned as is
(the factory is not invoked and the state does not change); otherwise the
factory is invoked once and its settling promise is registered under the key. -/
def run (s : RegState) (key : String) : RegState × ℕ :=
  match jsMapGet s.jobs key with
  | some j => (s, j)
  | none =>
    ({ jobs := jsMapSet s.jobs key s.nextId,
       nextId := s.nextId + 1,
       invocations := s.invocations + 1 }, s.nextId)

/-- Model of the settlement callbacks: both the then and the catch branch
delete the key before propagating the result. -/
def settle (s : RegState) (key : String) : RegState :=
  { s with jobs := jsMapDelete s.jobs key }

/-- n consecutive run calls for the same key with no settlement in between:
the embedding of n concurrent callers racing on one tile. -/
def runMany (s : RegState) (key : String) : ℕ → RegState × List ℕ
  | 0 => (s, [])
  | n + 1 =>
    let (s', j) := run s key
    let (s'', js) := runMany s' key n
    (s'', j :: js)

/-- Keys of the in-flight map are pairwise distinct. -/
def UniqueKeys (s : RegState) : Prop := (s.jobs.map Prod.fst).Nodup

end TileJobRegistry

/-! The weak ETag builder (buildTileEtag in GeoRoutes.ts). -/

/-- A validated tile address (z, x, y all integers within range when the
builder is reached). -/
structure TileCoord where
  z : ℕ
  x : ℕ
  y : ℕ

/-- Model of Math.round: round half toward positive infinity. -/
def jsRound (q : ℚ) : ℤ := ⌊q + mkRat 1 2⌋

/-- Characters kept by the sanitizer [^a-zA-Z0-9_-]. -/
def isSafeTagChar (c : Char) : Bool :=
  ('a' ≤ c && c ≤ 'z') || ('A' ≤ c && c ≤ 'Z') || ('0' ≤ c && c ≤ '9')
    || c = '_' || c = '-'

/-- The sanitized relative path: every other character becomes a dash. -/
def sanitizePath (s : String) : List Char :=
  s.data.map fun c => if isSafeTagChar c then c else '-'

/-- Model of buildTileEtag: the weak tag
W/"kind-safePath-roundedLastModified-featureCount-z-x-y". -/
def buildTileEtag (kindTag : String) (tile : TileCoord)
    (datasetInfo : PoiDatasetInfo) : String :=
  String.mk ("W/\"".data ++ kindTag.data
    ++ '-' :: sanitizePath datasetInfo.relativePath
    ++ '-' :: intReprChars (jsRound datasetInfo.lastModified)
    ++ '-' :: natReprChars datasetInfo.featureCount
    ++ '-' :: natReprChars tile.z
    ++ '-' :: natReprChars tile.x
    ++ '-' :: natReprChars tile.y
    ++ ['"'])

/-- A concrete dataset fingerprint used as a test vector. -/
def sampleInfo : PoiDatasetInfo :=
  ⟨"/data/thailand-cities.geojson", "thailand-cities.geojson", "geojson",
   1700000000000, 3⟩

/-- A concrete well-formed tile payload used as a test vector, carrying the
fingerprint of sampleInfo. -/
def samplePayload : TilePayload :=
  ⟨8, 181, 115, ⟨100, 13, 101, 14⟩, 1,
   ⟨"thailand-cities.geojson", "geojson", 1700000000000, 3⟩,
   ⟨"8/181/115", "2024-01-01T00:00:00.000Z", false⟩,
   [⟨100, 13, [("category", .jstr "retail")]⟩]⟩

/-! Helper lemmas about the insertion-ordered maps. -/

theorem jsMapGet_set_self {α : Type} (m : List (String × α)) (k : String) (v : α) :
    jsMapGet (jsMapSet m k v) k = some v := by
  induction m with
  | nil => simp [jsMapSet, jsMapGet]
  | cons hd tl ih =>
    by_cases h : hd.1 = k
    · simp [jsMapSet, jsMapGet, h]
    · simpa [jsMapSet, jsMapGet, h] using ih

theorem jsMapGet_set_ne {α : Type} (m : List (String × α)) (k k' : String) (v : α)
    (h : k ≠ k') : jsMapGet (jsMapSet m k v) k' = jsMapGet m k' := by
  induction m with
  | nil => simp [jsMapSet, jsMapGet, h]
  | cons hd tl ih =>
    by_cases h1 : hd.1 = k
    · simp [jsMapSet, jsMapGet, h1, h]
    · simp only [jsMapSet, h1, if_neg h1, jsMapGet]
      by_cases h2 : hd.1 = k'
      · simp [h2]
      · simpa [h2] using ih

theorem jsMapGet_delete_self {α : Type} (m : List (String × α)) (k : String) :
    jsMapGet (jsMapDelete m k) k = none := by
  induction m with
  | nil => simp [jsMapDelete, jsMapGet]
  | cons hd tl ih =>
    by_cases h : hd.1 = k
    · simpa [jsMapDelete, jsMapGet, h] using ih
    · simpa [jsMapDelete, jsMapGet, h] using ih

theorem jsMapSet_keys_of_mem {α : Type} (m : List (String × α)) (k : String) (v : α)
    (h : jsMapGet m k ≠ none) :
    (jsMapSet m k v).map Prod.fst = m.map Prod.fst := by
  induction m with
  | nil => simp [jsMapGet] at h
  | cons hd tl ih =>
    by_cases h1 : hd.1 = k
    · simp [jsMapSet, h1]
    · simp only [jsMapGet, h1, if_neg h1] at h
      simp [jsMapSet, h1, ih h]

theorem jsMapSet_keys_of_not_mem {α : Type} (m : List (String × α)) (k : String) (v : α)
    (h : jsMapGet m k = none) :
    (jsMapSet m k v).map Prod.fst = m.map Prod.fst ++ [k] := by
  induction m with
  | nil => simp [jsMapSet]
  | cons hd tl ih =>
    by_cases h1 : hd.1 = k
    · simp [jsMapGet, h1] at h
    · simp only [jsMapGet, h1, if_neg h1] at h
      simp [jsMapSet, h1, ih h]

theorem jsMapGet_isSome_of_mem_keys {α : Type} (m : List (String × α))
    (k : String) (h : k ∈ m.map Prod.fst) : jsMapGet m k ≠ none := by
  induction m with
  | nil => simp at h
  | cons hd tl ih =>
    by_cases h1 : hd.1 = k
    · simp [jsMapGet, h1]
    · have h2 : k ∈ tl.map Prod.fst := by
        rw [List.map_cons] at h
        rcases List.mem_cons.mp h with h2 | h2
        · exact absurd h2.symm h1
        · exact h2
      simp [jsMapGet, h1, ih h2]

/-! C1: the single-flight job registry. -/

/-- C1: joining an in-flight job returns that job and leaves the registry
(and the invocation count) unchanged; n concurrent run calls on a free key
invoke the factory exactly once and hand every caller the same promise;
settling (either branch) removes the key; a run after settlement invokes the
factory afresh; and both events preserve key uniqueness, so the registry never
holds more than one live job per key. -/
theorem tileJobRegistry_spec :
    (∀ s key j, jsMapGet s.jobs key = some j →
       TileJobRegistry.run s key = (s, j)) ∧
    (∀ s key n, jsMapGet s.jobs key = none → 0 < n →
       (TileJobRegistry.runMany s key n).1.invocations = s.invocations + 1 ∧
       (TileJobRegistry.runMany s key n).2 = List.replicate n s.nextId) ∧
    (∀ s key, jsMapGet (TileJobRegistry.settle s key).jobs key = none) ∧
    (∀ s key, jsMapGet s.jobs key = none →
       (TileJobRegistry.run s key).1.invocations = s.invocations + 1) ∧
    (∀ s key, TileJobRegistry.UniqueKeys s →
       TileJobRegistry.UniqueKeys (TileJobRegistry.run s key).1 ∧
       TileJobRegistry.UniqueKeys (TileJobRegistry.settle s key)) := by
  have hjoin : ∀ s key j, jsMapGet s.jobs key = some j →
      TileJobRegistry.run s key = (s, j) := by
    intro s key j h
    simp [TileJobRegistry.run, h]
  have hmany : ∀ n s key j, jsMapGet s.jobs key = some j →
      TileJobRegistry.runMany s key n = (s, List.replicate n j) := by
    intro n
    induction n with
    | zero => intro s key j h; simp [TileJobRegistry.runMany]
    | succ m ih =>
      intro s key j h
      simp [TileJobRegistry.runMany, hjoin s key j h, ih s key j h,
        List.replicate_succ]
  refine ⟨hjoin, ?_, ?_, ?_, ?_⟩
  · intro s key n h hn
    obtain ⟨m, rfl⟩ : ∃ m, n = m + 1 := ⟨n - 1, (Nat.succ_pred_eq_of_pos hn).symm⟩
    have hrun : TileJobRegistry.run s key =
        (⟨jsMapSet s.jobs key s.nextId, s.nextId + 1, s.invocations + 1⟩, s.nextId) := by
      simp [TileJobRegistry.run, h]
    have hget : jsMapGet
        ((⟨jsMapSet s.jobs key s.nextId, s.nextId + 1, s.invocations + 1⟩ : RegState)).jobs
        key = some s.nextId :=
      jsMapGet_set_self s.jobs key s.nextId
    have h2 := hmany m ⟨jsMapSet s.jobs key s.nextId, s.nextId + 1, s.invocations + 1⟩
      key s.nextId hget
    simp [TileJobRegistry.runMany, hrun, h2, List.replicate_succ]
  · intro s key
    exact jsMapGet_delete_self s.jobs key
  · intro s key h
    simp [TileJobRegistry.run, h]
  · intro s key hu
    constructor
    · cases hcase : jsMapGet s.jobs key with
      | some j => simpa [TileJobRegistry.run, hcase] using hu
      | none =>
        have hkeys := jsMapSet_keys_of_not_mem s.jobs key s.nextId hcase
        have hnot : key ∉ s.jobs.map Prod.fst := fun hmem =>
          jsMapGet_isSome_of_mem_keys s.jobs key hmem hcase
        simp only [TileJobRegistry.run, hcase, TileJobRegistry.UniqueKeys] at hu ⊢
        rw [hkeys]
        refine List.Nodup.append hu (List.nodup_singleton key) ?_
        simpa [List.disjoint_singleton] using hnot
    · have : (TileJobRegistry.settle s key).jobs.map Prod.fst
          |>.Sublist (s.jobs.map Prod.fst) :=
        List.Sublist.map Prod.fst (List.filter_sublist s.jobs)
      exact this.nodup hu

/-- Witness for C1: from the empty registry, three concurrent callers for one
tile key get the same promise id and cause exactly one factory invocation. -/
theorem tileJobRegistry_spec_witness :
    (TileJobRegistry.runMany ⟨[], 0, 0⟩ "8/1/2" 3).1.invocations = 0 + 1 ∧
    (TileJobRegistry.runMany ⟨[], 0, 0⟩ "8/1/2" 3).2 = List.replicate 3 0 :=
  tileJobRegistry_spec.2.1 ⟨[], 0, 0⟩ "8/1/2" 3 rfl (by decide)

/-! C6: the bounding-box filter. -/

/-- C6: with no bbox the filter is the identity; with a bbox it is an
order-preserving subsequence (a sublist) of the input, every surviving feature
lies in the closed box, and every input feature lying in the closed box
survives. -/
theorem filterByBbox_spec :
    (∀ F : List GeoFeature, GeoRoutes.filterByBbox F none = F) ∧
    (∀ F (b : Bbox), (GeoRoutes.filterByBbox F (some b)).Sublist F) ∧
    (∀ F (b : Bbox) f, f ∈ GeoRoutes.filterByBbox F (some b) →
       b.minLon ≤ f.lon ∧ f.lon ≤ b.maxLon ∧ b.minLat ≤ f.lat ∧ f.lat ≤ b.maxLat) ∧
    (∀ F (b : Bbox) f, f ∈ F →
       b.minLon ≤ f.lon → f.lon ≤ b.maxLon → b.minLat ≤ f.lat → f.lat ≤ b.maxLat →
       f ∈ GeoRoutes.filterByBbox F (some b)) := by
  refine ⟨fun F => rfl, fun F b => List.filter_sublist F, ?_, ?_⟩
  · intro F b f hf
    have := List.of_mem_filter hf
    simp only [ge_iff_le, Bool.and_eq_true, decide_eq_true_eq] at this
    exact ⟨this.1.1.1, this.1.1.2, this.1.2, this.2⟩
  · intro F b f hmem h1 h2 h3 h4
    refine List.mem_filter.mpr ⟨hmem, ?_⟩
    simp only [ge_iff_le, Bool.and_eq_true, decide_eq_true_eq]
    exact ⟨⟨⟨h1, h2⟩, h3⟩, h4⟩

/-- Witness for C6: a feature on the boundary of a concrete box survives the
filter. -/
theorem filterByBbox_spec_witness :
    (⟨100, 13, []⟩ : GeoFeature) ∈
      GeoRoutes.filterByBbox [⟨100, 13, []⟩] (some ⟨100, 13, 101, 14⟩) :=
  filterByBbox_spec.2.2.2 [⟨100, 13, []⟩] ⟨100, 13, 101, 14⟩ ⟨100, 13, []⟩
    (List.mem_singleton.mpr rfl) (by norm_num) (by norm_num) (by norm_num)
    (by norm_num)

/-! C8: clamping of the zoom and limit query parameters. -/

/-- C8 counterexample: parseZoom does not return an integer for every value —
the fractional input 3.5 is clamped but not rounded, so the result 7/2 is not
an integer (parseLimit, by contrast, does floor). -/
theorem parseZoom_claim_counterexample :
    GeoRoutes.parseZoom (.str "3.5") = mkRat 7 2 ∧
    (GeoRoutes.parseZoom (.str "3.5")).den ≠ 1 := by decide

/-- C8 (amended): parseZoom returns a value in [0, 22], defaulting to 8 when
the query value is not a finite number, clamping finite values to the nearest
bound but leaving fractional values unrounded; parseLimit returns the given
default when the value is not a finite number and otherwise an integer in
[1, 5000]. -/
theorem parseQuery_clamp_spec :
    (∀ v : QVal, 0 ≤ GeoRoutes.parseZoom v ∧ GeoRoutes.parseZoom v ≤ 22) ∧
    (∀ v : QVal, v.first.bind jsNumber = none → GeoRoutes.parseZoom v = 8) ∧
    (∀ (v : QVal) (d : ℚ), v.first.bind jsNumber = none →
       GeoRoutes.parseLimit v d = d) ∧
    (∀ (v : QVal) (d : ℚ), v.first.bind jsNumber ≠ none →
       (GeoRoutes.parseLimit v d).den = 1 ∧ 1 ≤ GeoRoutes.parseLimit v d ∧
       GeoRoutes.parseLimit v d ≤ 5000) := by
  refine ⟨?_, ?_, ?_, ?_⟩
  · intro v
    unfold GeoRoutes.parseZoom
    cases h : v.first.bind jsNumber with
    | none => norm_num
    | some q =>
      exact ⟨le_min (by norm_num) (le_max_left 0 q), min_le_left 22 _⟩
  · intro v h
    simp [GeoRoutes.parseZoom, h]
  · intro v d h
    simp [GeoRoutes.parseLimit, h]
  · intro v d h
    rcases Option.ne_none_iff_exists'.mp h with ⟨q, hq⟩
    have heq : GeoRoutes.parseLimit v d = ((max 1 (min 5000 ⌊q⌋) : ℤ) : ℚ) := by
      simp only [GeoRoutes.parseLimit, hq]
      push_cast
      rfl
    rw [heq]
    refine ⟨Rat.den_intCast _, ?_, ?_⟩
    · exact_mod_cast le_max_left (1 : ℤ) (min 5000 ⌊q⌋)
    · exact_mod_cast max_le (by norm_num) (min_le_left (5000 : ℤ) ⌊q⌋)

/-- Witness for C8 (amended): a concrete fractional limit value is floored
into an integer within the bounds. -/
theorem parseQuery_clamp_spec_witness :
    (GeoRoutes.parseLimit (.str "2.7") 500).den = 1 ∧
    1 ≤ GeoRoutes.parseLimit (.str "2.7") 500 ∧
    GeoRoutes.parseLimit (.str "2.7") 500 ≤ 5000 :=
  parseQuery_clamp_spec.2.2.2 (.str "2.7") 500 (by decide)

/-! C7: the bbox-validation guard of the endpoints. -/

/-- C7 counterexample: the query string 1,2,3,4,x is not a 4-tuple of numbers
(it has five comma-separated components, one of which is not numeric), so the
claim demands a 400 response; but parseBbox discards the NaN part before
counting, accepts the string as the box (1,2,3,4), and the endpoint does not
respond 400. -/
theorem bboxValidation_claim_counterexample :
    ['x'] ∈ jsSplit ',' (QVal.str "1,2,3,4,x").joined ∧
    jsNumber (jsTrim ['x']) = none ∧
    (jsSplit ',' (QVal.str "1,2,3,4,x").joined).length ≠ 4 ∧
    GeoRoutes.parseBbox (.str "1,2,3,4,x") = some ⟨1, 2, 3, 4⟩ ∧
    GeoRoutes.respondsBadRequest (.str "1,2,3,4,x") = false := by decide

/-- C7 (amended): the endpoint responds 400 exactly when the bbox query value
is truthy and, after discarding the components that do not parse as numbers,
the remaining numeric components do not form a non-inverted 4-tuple.  (A
string whose four numeric components are well-formed is never rejected, even
when further non-numeric components are present; an empty or absent bbox is
never rejected.) -/
theorem bboxValidation_spec :
    ∀ v : QVal,
      GeoRoutes.respondsBadRequest v = true ↔
        (v.truthy = true ∧
          ((GeoRoutes.numericParts v).length ≠ 4 ∨
            ∃ a b c d, GeoRoutes.numericParts v = [a, b, c, d] ∧
              (a > c ∨ b > d))) := by
  intro v
  by_cases ht : v.truthy = true
  · have hpb : GeoRoutes.parseBbox v =
        (match GeoRoutes.numericParts v with
         | [a, b, c, d] => if a > c ∨ b > d then none else some ⟨a, b, c, d⟩
         | _ => none) := by
      simp [GeoRoutes.parseBbox, ht, GeoRoutes.numericParts]
    rcases hnp : GeoRoutes.numericParts v with _ | ⟨a, _ | ⟨b, _ | ⟨c, _ | ⟨d, _ | ⟨e, rest⟩⟩⟩⟩⟩ <;>
      rw [hnp] at hpb
    · simp [GeoRoutes.respondsBadRequest, hpb, ht]
    · simp [GeoRoutes.respondsBadRequest, hpb, ht]
    · simp [GeoRoutes.respondsBadRequest, hpb, ht]
    · simp [GeoRoutes.respondsBadRequest, hpb, ht]
    · by_cases hinv : a > c ∨ b > d
      · constructor
        · intro _
          exact ⟨ht, Or.inr ⟨a, b, c, d, rfl, hinv⟩⟩
        · intro _
          simp [GeoRoutes.respondsBadRequest, hpb, ht, hinv]
      · constructor
        · intro hbad
          simp [GeoRoutes.respondsBadRequest, hpb, ht, hinv] at hbad
        · rintro ⟨-, hlen | ⟨a', b', c', d', heq, hinv'⟩⟩
          · simp at hlen
          · simp only [List.cons.injEq, and_true] at heq
            obtain ⟨rfl, rfl, rfl, rfl⟩ := heq
            exact absurd hinv' hinv
    · simp [GeoRoutes.respondsBadRequest, hpb, ht]
  · simp only [Bool.not_eq_true] at ht
    simp [GeoRoutes.respondsBadRequest, ht]

/-! C10: agreement of the two parseBbox implementations. -/

/-- C10 counterexample: on a,1,2,3,4 the cities-route parseBbox (which counts
the parts before discarding NaN) rejects, while the GeoRoutes parseBbox
(which discards NaN parts first) accepts the box (1,2,3,4); the two
implementations do not compute the same function. -/
theorem parseBbox_agreement_counterexample :
    CitiesV0.parseBbox (.str "a,1,2,3,4") = none ∧
    GeoRoutes.parseBbox (.str "a,1,2,3,4") = some ⟨1, 2, 3, 4⟩ := by decide

/-- A map by an Option-valued function with no failing element is the image of
its filterMap under some. -/
theorem map_eq_filterMap_map_some {α β : Type} (f : α → Option β) :
    ∀ l : List α, (∀ x ∈ l, f x ≠ none) →
      l.map f = (l.filterMap f).map some := by
  intro l
  induction l with
  | nil => intro h; simp
  | cons hd tl ih =>
    intro h
    rcases Option.ne_none_iff_exists'.mp (h hd (List.mem_cons_self hd tl)) with ⟨q, hq⟩
    simp [hq, List.filterMap_cons,
      ih fun x hx => h x (List.mem_cons_of_mem hd hx)]

/-- C10 (amended): the two parseBbox implementations agree on every query
value whose comma-separated components all parse as numbers (in particular on
every well-formed bbox string and on every absent or empty value); they differ
only on strings with a non-numeric component, which the cities route rejects
and GeoRoutes may accept. -/
theorem parseBbox_agreement_spec :
    ∀ v : QVal,
      (∀ part ∈ jsSplit ',' v.joined, jsNumber (jsTrim part) ≠ none) →
      CitiesV0.parseBbox v = GeoRoutes.parseBbox v := by
  intro v h
  by_cases ht : v.truthy = true
  · have hmap := map_eq_filterMap_map_some (fun p => jsNumber (jsTrim p))
      (jsSplit ',' v.joined) h
    have hv0 : CitiesV0.parseBbox v =
        (let parts := (GeoRoutes.numericParts v).map some
         if parts.length ≠ 4 ∨ parts.any (fun num => num.isNone) then none
         else match parts with
           | [some minLon, some minLat, some maxLon, some maxLat] =>
             if minLon > maxLon ∨ minLat > maxLat then none
             else some ⟨minLon, minLat, maxLon, maxLat⟩
           | _ => none) := by
      simp only [CitiesV0.parseBbox, ht, Bool.not_true, if_false, Bool.false_eq_true]
      rw [hmap]
      rfl
    have hgeo : GeoRoutes.parseBbox v =
        (match GeoRoutes.numericParts v with
         | [a, b, c, d] => if a > c ∨ b > d then none else some ⟨a, b, c, d⟩
         | _ => none) := by
      simp [GeoRoutes.parseBbox, ht, GeoRoutes.numericParts]
    rcases hnp : GeoRoutes.numericParts v with _ | ⟨a, _ | ⟨b, _ | ⟨c, _ | ⟨d, _ | ⟨e, rest⟩⟩⟩⟩⟩ <;>
      rw [hnp] at hv0 hgeo <;> simp_all
  · simp only [Bool.not_eq_true] at ht
    simp [CitiesV0.parseBbox, GeoRoutes.parseBbox, ht]

/-- Witness for C10 (amended): on a fully numeric 4-tuple string the two
implementations produce the same box. -/
theorem parseBbox_agreement_spec_witness :
    CitiesV0.parseBbox (.str "100,13,101,14") =
      GeoRoutes.parseBbox (.str "100,13,101,14") :=
  parseBbox_agreement_spec (.str "100,13,101,14") (by decide)

/-! C2: the cache round trip. -/

/-- C2: writing any structurally well-formed payload to the cache and reading
it back under the payload's own dataset fingerprint returns the payload with
cache.hit true and every other field (including the rest of the cache block)
unchanged. -/
theorem cacheRoundTrip_spec (p : TilePayload) (info : PoiDatasetInfo)
    (h1 : p.dataset.relativePath = info.relativePath)
    (h2 : p.dataset.lastModified = info.lastModified) :
    readCityTileFromCache (some (some (writeCityTileToCache p))) info =
      some (payloadToJVal { p with cache := { p.cache with hit := true } }) := by
  simp [writeCityTileToCache, payloadToJVal, readCityTileFromCache,
    isValidTilePayload, jsField, jsField.lookupField, jsTruthyV, typeofObject,
    setCacheHit, jsMapGet, jsMapSet, h1, h2]

/-- Witness for C2: the round trip on a concrete payload and its own
fingerprint. -/
theorem cacheRoundTrip_spec_witness :
    readCityTileFromCache (some (some (writeCityTileToCache samplePayload)))
        sampleInfo =
      some (payloadToJVal
        { samplePayload with
          cache := { samplePayload.cache with hit := true } }) :=
  cacheRoundTrip_spec samplePayload sampleInfo rfl rfl

/-! C3: totality of the cache read. -/

/-- The cache read on a parsed record is the validity check and the
fingerprint check followed by the hit mutation. -/
theorem read_parsed_eq (v : JVal) (info : PoiDatasetInfo) :
    readCityTileFromCache (some (some v)) info =
      if isValidTilePayload v && fingerprintMatches v info then setCacheHit v
      else none := by
  unfold readCityTileFromCache fingerprintMatches
  cases hval : isValidTilePayload v with
  | false => simp [hval]
  | true =>
    simp only [hval, Bool.not_true, Bool.false_eq_true, if_false, Bool.true_and]
    generalize jsField v "dataset" = dso
    cases dso with
    | none => simp
    | some ds =>
      cases ds with
      | jnull => simp [jsField]
      | jbool b => simp [jsField]
      | jnum q => simp [jsField]
      | jstr s => simp [jsField]
      | jarr xs => simp [jsField]
      | jobj fs =>
        dsimp only
        generalize jsField (JVal.jobj fs) "relativePath" = rpo
        cases rpo with
        | none => simp
        | some rpv =>
          cases rpv with
          | jnull => simp
          | jbool b => simp
          | jnum q => simp
          | jarr xs => simp
          | jobj gs => simp
          | jstr s =>
            by_cases hs : s = info.relativePath
            · generalize jsField (JVal.jobj fs) "lastModified" = lmo
              cases lmo with
              | none => simp [hs]
              | some lmv =>
                cases lmv with
                | jnull => simp [hs]
                | jbool b => simp [hs]
                | jstr t => simp [hs]
                | jarr xs => simp [hs]
                | jobj gs => simp [hs]
                | jnum q =>
                  by_cases hq : q = info.lastModified
                  · simp [hs, hq]
                  · simp [hs, hq]
            · simp [hs]

/-- C3: the cache read is a total function into an Option that returns none
whenever the file is absent, the content is unparseable, the record fails the
structural validity check, or the embedded fingerprint does not match the
supplied one; and any returned record passed all three checks. -/
theorem cacheRead_total_spec :
    ∀ (disk : Option (Option JVal)) (info : PoiDatasetInfo),
      ((disk = none ∨ disk = some none ∨
          ∃ v, disk = some (some v) ∧
            (isValidTilePayload v = false ∨ fingerprintMatches v info = false)) →
        readCityTileFromCache disk info = none) ∧
      (∀ q, readCityTileFromCache disk info = some q →
        ∃ v, disk = some (some v) ∧ isValidTilePayload v = true ∧
          fingerprintMatches v info = true) := by
  intro disk info
  constructor
  · rintro (rfl | rfl | ⟨v, rfl, hbad⟩)
    · rfl
    · rfl
    · rw [read_parsed_eq]
      rcases hbad with h | h <;> simp [h]
  · intro q hq
    rcases disk with _ | (_ | v)
    · exact absurd hq (by simp [readCityTileFromCache])
    · exact absurd hq (by simp [readCityTileFromCache])
    · rw [read_parsed_eq] at hq
      cases hcond : (isValidTilePayload v && fingerprintMatches v info) with
      | false => rw [hcond] at hq; simp at hq
      | true =>
        have h2 : isValidTilePayload v = true ∧ fingerprintMatches v info = true := by
          simpa using hcond
        exact ⟨v, rfl, h2.1, h2.2⟩

/-- Witness for C3: the missing-file case returns none for a concrete
fingerprint. -/
theorem cacheRead_total_spec_witness :
    readCityTileFromCache none sampleInfo = none :=
  (cacheRead_total_spec none sampleInfo).1 (Or.inl rfl)

/-! C5: slippy-map tile geometry. -/

/-- The latitude transform is strictly decreasing in the tile row. -/
theorem tileYToLat_strictAnti (z : ℕ) (a b : ℚ) (hab : a < b) :
    GeoRoutes.tileYToLat b z < GeoRoutes.tileYToLat a z := by
  unfold GeoRoutes.tileYToLat
  have hpi := Real.pi_pos
  have h1 : (0 : ℝ) < 180 / Real.pi := by positivity
  apply mul_lt_mul_of_pos_left ?_ h1
  have hsinh : ∀ t : ℝ, 0.5 * (Real.exp t - Real.exp (-t)) = Real.sinh t := by
    intro t
    rw [Real.sinh_eq]
    ring
  rw [hsinh, hsinh]
  apply Real.arctan_strictMono
  apply Real.sinh_lt_sinh.mpr
  have hcast : ((a : ℝ)) < (b : ℝ) := by exact_mod_cast hab
  apply sub_lt_sub_left
  gcongr

/-- C5: for every valid tile address the box is non-degenerate (west edge
strictly west of east edge, south edge strictly south of north edge), the
west edge is exactly x / 2^z * 360 - 180, and the east edge of tile (x, y) is
the very same value as the west edge of tile (x+1, y). -/
theorem tileToBbox_spec (z x y : ℕ) (hz : z ≤ 22) (hx : x < 2 ^ z)
    (hy : y < 2 ^ z) :
    (GeoRoutes.tileToBbox z x y).minLon < (GeoRoutes.tileToBbox z x y).maxLon ∧
    (GeoRoutes.tileToBbox z x y).minLat < (GeoRoutes.tileToBbox z x y).maxLat ∧
    (GeoRoutes.tileToBbox z x y).minLon = (x : ℚ) / 2 ^ z * 360 - 180 ∧
    (GeoRoutes.tileToBbox z x y).maxLon =
      (GeoRoutes.tileToBbox z ((x : ℚ) + 1) y).minLon := by
  refine ⟨?_, ?_, rfl, rfl⟩
  · show GeoRoutes.tileXToLon x z < GeoRoutes.tileXToLon ((x : ℚ) + 1) z
    unfold GeoRoutes.tileXToLon
    have hpow : (0 : ℚ) < 2 ^ z := by positivity
    gcongr
    linarith
  · exact tileYToLat_strictAnti z y ((y : ℚ) + 1) (by linarith)

/-- Witness for C5: the spec holds at the concrete tile (z, x, y) = (1, 0, 0). -/
theorem tileToBbox_spec_witness :
    (GeoRoutes.tileToBbox 1 0 0).minLon < (GeoRoutes.tileToBbox 1 0 0).maxLon ∧
    (GeoRoutes.tileToBbox 1 0 0).minLat < (GeoRoutes.tileToBbox 1 0 0).maxLat ∧
    (GeoRoutes.tileToBbox 1 0 0).minLon = ((0 : ℕ) : ℚ) / 2 ^ 1 * 360 - 180 ∧
    (GeoRoutes.tileToBbox 1 0 0).maxLon =
      (GeoRoutes.tileToBbox 1 (((0 : ℕ) : ℚ) + 1) 0).minLon := by
  have h := tileToBbox_spec 1 0 0 (by norm_num) (by norm_num) (by norm_num)
  simpa using h

/-! C9: the weak ETag builder.  Decimal renderings of distinct numbers are
distinct, and the dash-separated tail of the tag is uniquely decodable because
the numeric segments never contain a dash. -/

theorem digitChar_toNat : ∀ d, d < 10 → (digitChar d).toNat - 48 = d := by decide

theorem digitChar_isDecDigit : ∀ d, d < 10 → isDecDigit (digitChar d) = true := by
  decide

theorem decDigitsToNat_append_digit (xs : List Char) (c : Char) :
    decDigitsToNat (xs ++ [c]) = 10 * decDigitsToNat xs + (c.toNat - 48) := by
  simp [decDigitsToNat, List.foldl_append]

/-- With sufficient fuel, the decimal rendering is nonempty, consists of
digits, and evaluates back to the rendered number. -/
theorem natReprAux_spec :
    ∀ fuel n, n < fuel →
      decDigitsToNat (natReprAux fuel n) = n ∧ natReprAux fuel n ≠ [] ∧
      ∀ c ∈ natReprAux fuel n, isDecDigit c = true := by
  intro fuel
  induction fuel with
  | zero => intro n h; exact absurd h (Nat.not_lt_zero n)
  | succ fuel ih =>
    intro n hn
    by_cases h10 : n < 10
    · simp only [natReprAux, if_pos h10]
      refine ⟨?_, by simp, ?_⟩
      · have hv := digitChar_toNat n h10
        simp [decDigitsToNat, hv]
      · intro c hc
        rcases List.mem_singleton.mp hc with rfl
        exact digitChar_isDecDigit n h10
    · have hm : n / 10 < fuel := by
        have h1 : n / 10 < n := Nat.div_lt_self (by omega) (by omega)
        omega
      obtain ⟨ihv, ihne, ihall⟩ := ih (n / 10) hm
      simp only [natReprAux, if_neg h10]
      refine ⟨?_, by simp, ?_⟩
      · rw [decDigitsToNat_append_digit, ihv, digitChar_toNat (n % 10) (by omega)]
        omega
      · intro c hc
        rcases List.mem_append.mp hc with h | h
        · exact ihall c h
        · rcases List.mem_singleton.mp h with rfl
          exact digitChar_isDecDigit (n % 10) (by omega)

theorem natReprChars_spec (n : ℕ) :
    decDigitsToNat (natReprChars n) = n ∧ natReprChars n ≠ [] ∧
    ∀ c ∈ natReprChars n, isDecDigit c = true :=
  natReprAux_spec (n + 1) n (Nat.lt_succ_self n)

theorem natReprChars_inj {m n : ℕ} (h : natReprChars m = natReprChars n) :
    m = n := by
  have hm := (natReprChars_spec m).1
  have hn := (natReprChars_spec n).1
  rw [← hm, ← hn, h]

theorem dash_not_mem_natReprChars (n : ℕ) : '-' ∉ natReprChars n := by
  intro h
  have hd := (natReprChars_spec n).2.2 _ h
  exact absurd hd (by decide)

/-- Unique decodability at the last dash: two splittings of one list at a
dash whose right parts are dash-free coincide. -/
theorem append_dash_inj (u1 v1 u2 v2 : List Char)
    (h : u1 ++ '-' :: v1 = u2 ++ '-' :: v2)
    (h1 : '-' ∉ v1) (h2 : '-' ∉ v2) : u1 = u2 ∧ v1 = v2 := by
  rcases List.append_eq_append_iff.mp h with ⟨a, ha1, ha2⟩ | ⟨c, hc1, hc2⟩
  · cases a with
    | nil => simp at ha1 ha2; exact ⟨ha1.symm, ha2⟩
    | cons x xs =>
      simp only [List.cons_append, List.cons.injEq] at ha2
      obtain ⟨rfl, hv⟩ := ha2
      exact absurd (hv ▸ List.mem_append_right xs (List.mem_cons_self '-' v2)) h1
  · cases c with
    | nil => simp at hc1 hc2; exact ⟨hc1, hc2.symm⟩
    | cons x xs =>
      simp only [List.cons_append, List.cons.injEq] at hc2
      obtain ⟨rfl, hv⟩ := hc2
      exact absurd (hv ▸ List.mem_append_right xs (List.mem_cons_self '-' v1)) h2

/-- C9 counterexample: two dataset fingerprints whose relative paths differ
(a.json against a-json) sanitize to the same safe path and therefore produce
byte-identical tags for the same tile, so a change of the fingerprint does not
always change the tag. -/
theorem buildTileEtag_claim_counterexample :
    buildTileEtag "city" ⟨8, 1, 2⟩
        ⟨"/d/a.json", "a.json", "geojson", 100, 3⟩ =
      buildTileEtag "city" ⟨8, 1, 2⟩
        ⟨"/d/a-json", "a-json", "geojson", 100, 3⟩ ∧
    ("a.json" : String) ≠ "a-json" := by
  constructor
  · have hsp : sanitizePath "a.json" = sanitizePath "a-json" := by decide
    unfold buildTileEtag
    dsimp only
    rw [hsp]
  · decide

/-- C9 (amended): buildTileEtag is deterministic (equal inputs give
byte-identical tags), and for a fixed kind and tile two fingerprints with
nonnegative timestamps produce the same tag only when they agree on the
sanitized relative path, the rounded last-modified timestamp and the feature
count — equivalently, any change visible after sanitization and rounding
changes the tag. -/
theorem buildTileEtag_spec :
    (∀ (kindTag : String) (tile : TileCoord) (info : PoiDatasetInfo),
       buildTileEtag kindTag tile info = buildTileEtag kindTag tile info) ∧
    (∀ (kindTag : String) (tile : TileCoord) (i1 i2 : PoiDatasetInfo),
       0 ≤ i1.lastModified → 0 ≤ i2.lastModified →
       buildTileEtag kindTag tile i1 = buildTileEtag kindTag tile i2 →
       sanitizePath i1.relativePath = sanitizePath i2.relativePath ∧
       jsRound i1.lastModified = jsRound i2.lastModified ∧
       i1.featureCount = i2.featureCount) := by
  refine ⟨fun _ _ _ => rfl, ?_⟩
  intro kindTag tile i1 i2 hlm1 hlm2 heq
  have hjr1 : 0 ≤ jsRound i1.lastModified := by
    apply Int.le_floor.mpr
    have : (0 : ℚ) ≤ mkRat 1 2 := by norm_num [Rat.mkRat_eq_div]
    push_cast
    linarith
  have hjr2 : 0 ≤ jsRound i2.lastModified := by
    apply Int.le_floor.mpr
    have : (0 : ℚ) ≤ mkRat 1 2 := by norm_num [Rat.mkRat_eq_div]
    push_cast
    linarith
  simp only [buildTileEtag] at heq
  have hdata := congrArg String.data heq
  have h2 : ((sanitizePath i1.relativePath ++
          '-' :: intReprChars (jsRound i1.lastModified)) ++
        '-' :: natReprChars i1.featureCount) ++
        ('-' :: (natReprChars tile.z ++
          '-' :: (natReprChars tile.x ++
            '-' :: (natReprChars tile.y ++ ['"'])))) =
      ((sanitizePath i2.relativePath ++
          '-' :: intReprChars (jsRound i2.lastModified)) ++
        '-' :: natReprChars i2.featureCount) ++
        ('-' :: (natReprChars tile.z ++
          '-' :: (natReprChars tile.x ++
            '-' :: (natReprChars tile.y ++ ['"'])))) := by
    simpa [List.append_assoc] using hdata
  have h5 := List.append_cancel_right h2
  obtain ⟨h6, hc⟩ := append_dash_inj _ _ _ _ h5
    (dash_not_mem_natReprChars _) (dash_not_mem_natReprChars _)
  have e1 : intReprChars (jsRound i1.lastModified) =
      natReprChars (jsRound i1.lastModified).toNat := by
    unfold intReprChars
    rw [if_neg (not_lt.mpr hjr1)]
  have e2 : intReprChars (jsRound i2.lastModified) =
      natReprChars (jsRound i2.lastModified).toNat := by
    unfold intReprChars
    rw [if_neg (not_lt.mpr hjr2)]
  rw [e1, e2] at h6
  obtain ⟨hsp, hr⟩ := append_dash_inj _ _ _ _ h6
    (dash_not_mem_natReprChars _) (dash_not_mem_natReprChars _)
  refine ⟨hsp, ?_, natReprChars_inj hc⟩
  have hn := natReprChars_inj hr
  omega

/-- Witness for C9 (amended): the implication applied at a concrete
fingerprint with nonnegative timestamp and the reflexively equal tag. -/
theorem buildTileEtag_spec_witness :
    sanitizePath sampleInfo.relativePath = sanitizePath sampleInfo.relativePath ∧
    jsRound sampleInfo.lastModified = jsRound sampleInfo.lastModified ∧
    sampleInfo.featureCount = sampleInfo.featureCount :=
  buildTileEtag_spec.2 "city" ⟨8, 1, 2⟩ sampleInfo sampleInfo
    (by norm_num [sampleInfo]) (by norm_num [sampleInfo]) rfl

/-! C4: the grid clustering engine. -/

theorem mem_jsMapSet {α : Type} (m : List (String × α)) (k : String) (v : α) :
    ∀ p ∈ jsMapSet m k v, p ∈ m ∨ p = (k, v) := by
  induction m with
  | nil =>
    intro p hp
    simp [jsMapSet] at hp
    exact Or.inr hp
  | cons hd tl ih =>
    intro p hp
    by_cases h : hd.1 = k
    · simp only [jsMapSet, if_pos h] at hp
      rcases List.mem_cons.mp hp with rfl | hp
      · exact Or.inr (by rw [← h])
      · exact Or.inl (List.mem_cons_of_mem hd hp)
    · simp only [jsMapSet, if_neg h] at hp
      rcases List.mem_cons.mp hp with rfl | hp
      · exact Or.inl (List.mem_cons_self _ _)
      · rcases ih p hp with h2 | h2
        · exact Or.inl (List.mem_cons_of_mem hd h2)
        · exact Or.inr h2

theorem jsMapGet_mem {α : Type} (m : List (String × α)) (k : String) (v : α)
    (h : jsMapGet m k = some v) : (k, v) ∈ m := by
  induction m with
  | nil => simp [jsMapGet] at h
  | cons hd tl ih =>
    by_cases h1 : hd.1 = k
    · simp only [jsMapGet, if_pos h1, Option.some.injEq] at h
      have : (k, v) = hd := by
        rw [← h1, ← h]
      exact this ▸ List.mem_cons_self hd tl
    · simp only [jsMapGet, if_neg h1] at h
      exact List.mem_cons_of_mem hd (ih h)

theorem sumClusterCounts_set_none (m : List (String × GeoRoutes.Cluster))
    (k : String) (v : GeoRoutes.Cluster) (h : jsMapGet m k = none) :
    GeoRoutes.sumClusterCounts (jsMapSet m k v) =
      GeoRoutes.sumClusterCounts m + v.count := by
  induction m with
  | nil => simp [jsMapSet, GeoRoutes.sumClusterCounts]
  | cons hd tl ih =>
    by_cases h1 : hd.1 = k
    · simp [jsMapGet, h1] at h
    · simp only [jsMapGet, if_neg h1] at h
      simp only [jsMapSet, if_neg h1]
      simp only [GeoRoutes.sumClusterCounts, List.map_cons, List.sum_cons] at ih ⊢
      have h2 := ih h
      omega

theorem sumClusterCounts_set_some (m : List (String × GeoRoutes.Cluster))
    (k : String) (v o : GeoRoutes.Cluster) (h : jsMapGet m k = some o) :
    GeoRoutes.sumClusterCounts (jsMapSet m k v) + o.count =
      GeoRoutes.sumClusterCounts m + v.count := by
  induction m with
  | nil => simp [jsMapGet] at h
  | cons hd tl ih =>
    by_cases h1 : hd.1 = k
    · simp only [jsMapGet, if_pos h1, Option.some.injEq] at h
      subst h
      simp only [jsMapSet, if_pos h1]
      simp only [GeoRoutes.sumClusterCounts, List.map_cons, List.sum_cons]
      omega
    · simp only [jsMapGet, if_neg h1] at h
      simp only [jsMapSet, if_neg h1]
      simp only [GeoRoutes.sumClusterCounts, List.map_cons, List.sum_cons] at ih ⊢
      have h2 := ih h
      omega

theorem freshCluster_bounds (key : String) (f : GeoFeature) :
    GeoRoutes.ClusterBounds (GeoRoutes.freshCluster key f) := by
  simp [GeoRoutes.ClusterBounds, GeoRoutes.freshCluster]

theorem bumpCluster_bounds (c : GeoRoutes.Cluster) (f : GeoFeature)
    (h : GeoRoutes.ClusterBounds c) :
    GeoRoutes.ClusterBounds (GeoRoutes.bumpCluster c f) ∧
    1 ≤ (GeoRoutes.bumpCluster c f).count := by
  obtain ⟨h1, h2, h3, h4⟩ := h
  have hc : (0 : ℚ) ≤ (c.count : ℚ) := by positivity
  refine ⟨⟨?_, ?_, ?_, ?_⟩, by simp [GeoRoutes.bumpCluster]⟩ <;>
    simp only [GeoRoutes.bumpCluster] <;> push_cast
  · have ha : min c.minLon f.lon ≤ c.minLon := min_le_left _ _
    have hb : min c.minLon f.lon ≤ f.lon := min_le_right _ _
    nlinarith [mul_le_mul_of_nonneg_left ha hc]
  · have ha : c.maxLon ≤ max c.maxLon f.lon := le_max_left _ _
    have hb : f.lon ≤ max c.maxLon f.lon := le_max_right _ _
    nlinarith [mul_le_mul_of_nonneg_left ha hc]
  · have ha : min c.minLat f.lat ≤ c.minLat := min_le_left _ _
    have hb : min c.minLat f.lat ≤ f.lat := min_le_right _ _
    nlinarith [mul_le_mul_of_nonneg_left ha hc]
  · have ha : c.maxLat ≤ max c.maxLat f.lat := le_max_left _ _
    have hb : f.lat ≤ max c.maxLat f.lat := le_max_right _ _
    nlinarith [mul_le_mul_of_nonneg_left ha hc]

/-- The clustering fold: it preserves the per-cluster bounds with positive
counts, and the total count held by the map grows by exactly one per
processed feature — no feature is lost and none is double counted. -/
theorem buildClusters_fold_spec (cs : ℚ) :
    ∀ (fs : List GeoFeature) (m : List (String × GeoRoutes.Cluster)),
      (∀ p ∈ m, GeoRoutes.ClusterBounds p.2 ∧ 1 ≤ p.2.count) →
      (∀ p ∈ fs.foldl (GeoRoutes.clusterStep cs) m,
        GeoRoutes.ClusterBounds p.2 ∧ 1 ≤ p.2.count) ∧
      GeoRoutes.sumClusterCounts (fs.foldl (GeoRoutes.clusterStep cs) m) =
        GeoRoutes.sumClusterCounts m + fs.length := by
  intro fs
  induction fs with
  | nil =>
    intro m hm
    exact ⟨hm, by simp⟩
  | cons f fs ih =>
    intro m hm
    rw [List.foldl_cons]
    have hstep : ∀ p ∈ GeoRoutes.clusterStep cs m f,
        GeoRoutes.ClusterBounds p.2 ∧ 1 ≤ p.2.count := by
      intro p hp
      cases hget : jsMapGet m (GeoRoutes.cellKey (GeoRoutes.cellOf cs f).1
          (GeoRoutes.cellOf cs f).2) with
      | none =>
        simp only [GeoRoutes.clusterStep, hget] at hp
        rcases mem_jsMapSet _ _ _ p hp with h | rfl
        · exact hm p h
        · exact bumpCluster_bounds _ f (freshCluster_bounds _ f)
      | some o =>
        simp only [GeoRoutes.clusterStep, hget] at hp
        rcases mem_jsMapSet _ _ _ p hp with h | rfl
        · exact hm p h
        · exact bumpCluster_bounds o f (hm (_, o) (jsMapGet_mem m _ o hget)).1
    have hsum : GeoRoutes.sumClusterCounts (GeoRoutes.clusterStep cs m f) =
        GeoRoutes.sumClusterCounts m + 1 := by
      cases hget : jsMapGet m (GeoRoutes.cellKey (GeoRoutes.cellOf cs f).1
          (GeoRoutes.cellOf cs f).2) with
      | none =>
        simp only [GeoRoutes.clusterStep, hget]
        rw [sumClusterCounts_set_none m _ _ hget]
        simp [GeoRoutes.bumpCluster, GeoRoutes.freshCluster]
      | some o =>
        simp only [GeoRoutes.clusterStep, hget]
        have h2 := sumClusterCounts_set_some m
          (GeoRoutes.cellKey (GeoRoutes.cellOf cs f).1 (GeoRoutes.cellOf cs f).2)
          (GeoRoutes.bumpCluster o f) o hget
        have h3 : (GeoRoutes.bumpCluster o f).count = o.count + 1 := by
          simp [GeoRoutes.bumpCluster]
        omega
    obtain ⟨hall, hs⟩ := ih (GeoRoutes.clusterStep cs m f) hstep
    refine ⟨hall, ?_⟩
    rw [hs, hsum]
    simp only [List.length_cons]
    omega

theorem jsMapGet_set_isSome {α : Type} (m : List (String × α)) (k k' : String)
    (v : α) (h : jsMapGet m k ≠ none) :
    jsMapGet (jsMapSet m k' v) k ≠ none := by
  by_cases he : k' = k
  · rw [he, jsMapGet_set_self]
    simp
  · rw [jsMapGet_set_ne m k' k v he]
    exact h

/-- The clustering step always leaves the stepped feature's cell key present. -/
theorem clusterStep_key_present (cs : ℚ) (m : List (String × GeoRoutes.Cluster))
    (f : GeoFeature) :
    jsMapGet (GeoRoutes.clusterStep cs m f)
      (GeoRoutes.cellKey (GeoRoutes.cellOf cs f).1 (GeoRoutes.cellOf cs f).2) ≠
      none := by
  cases hget : jsMapGet m (GeoRoutes.cellKey (GeoRoutes.cellOf cs f).1
      (GeoRoutes.cellOf cs f).2) with
  | none =>
    simp only [GeoRoutes.clusterStep, hget]
    rw [jsMapGet_set_self]
    simp
  | some o =>
    simp only [GeoRoutes.clusterStep, hget]
    rw [jsMapGet_set_self]
    simp

/-- The clustering step never removes a present key. -/
theorem clusterStep_preserves (cs : ℚ) (m : List (String × GeoRoutes.Cluster))
    (f : GeoFeature) (k : String) (h : jsMapGet m k ≠ none) :
    jsMapGet (GeoRoutes.clusterStep cs m f) k ≠ none := by
  cases hget : jsMapGet m (GeoRoutes.cellKey (GeoRoutes.cellOf cs f).1
      (GeoRoutes.cellOf cs f).2) with
  | none =>
    simp only [GeoRoutes.clusterStep, hget]
    exact jsMapGet_set_isSome m k _ _ h
  | some o =>
    simp only [GeoRoutes.clusterStep, hget]
    exact jsMapGet_set_isSome m k _ _ h

/-- A key present in the map stays present through the rest of the fold. -/
theorem foldl_clusterStep_preserves (cs : ℚ) :
    ∀ (fs : List GeoFeature) (m : List (String × GeoRoutes.Cluster))
      (k : String), jsMapGet m k ≠ none →
      jsMapGet (fs.foldl (GeoRoutes.clusterStep cs) m) k ≠ none := by
  intro fs
  induction fs with
  | nil => intro m k h; simpa using h
  | cons f fs ih =>
    intro m k h
    rw [List.foldl_cons]
    exact ih _ k (clusterStep_preserves cs m f k h)

/-- Every processed feature leaves its grid cell populated in the final map. -/
theorem buildClusters_cell_assigned (cs : ℚ) :
    ∀ (fs : List GeoFeature) (m : List (String × GeoRoutes.Cluster)),
      ∀ f ∈ fs,
        jsMapGet (fs.foldl (GeoRoutes.clusterStep cs) m)
          (GeoRoutes.cellKey ⌊f.lon / cs⌋ ⌊f.lat / cs⌋) ≠ none := by
  intro fs
  induction fs with
  | nil => intro m f hf; cases hf
  | cons g fs ih =>
    intro m f hf
    rcases List.mem_cons.mp hf with rfl | hf
    · rw [List.foldl_cons]
      exact foldl_clusterStep_preserves cs fs _ _ (clusterStep_key_present cs m f)
    · rw [List.foldl_cons]
      exact ih (GeoRoutes.clusterStep cs m g) f hf

theorem sum_counts_mapWithIdx (zoom cs : ℚ) :
    ∀ (l : List GeoRoutes.Cluster) (i : ℕ),
      GeoRoutes.sumFeatureCounts
          (mapWithIdx (fun idx c => GeoRoutes.clusterToFeature zoom cs idx c) i l) =
        (l.map fun c => c.count).sum := by
  intro l
  induction l with
  | nil => intro i; simp [mapWithIdx, GeoRoutes.sumFeatureCounts]
  | cons c l ih =>
    intro i
    simp only [mapWithIdx, GeoRoutes.sumFeatureCounts, List.map_cons, List.sum_cons]
    have := ih (i + 1)
    simp only [GeoRoutes.sumFeatureCounts] at this
    rw [this]
    rfl

theorem mem_mapWithIdx {α β : Type} (f : ℕ → α → β) :
    ∀ (l : List α) (i : ℕ) (b : β), b ∈ mapWithIdx f i l →
      ∃ j a, a ∈ l ∧ b = f j a := by
  intro l
  induction l with
  | nil => intro i b hb; cases hb
  | cons x xs ih =>
    intro i b hb
    rcases List.mem_cons.mp hb with rfl | hb
    · exact ⟨i, x, List.mem_cons_self x xs, rfl⟩
    · obtain ⟨j, a, ha, hba⟩ := ih (i + 1) b hb
      exact ⟨j, a, List.mem_cons_of_mem x ha, hba⟩

/-- C4: the counts of the returned clusters sum to at most the number of
bbox-filtered input features, with equality as soon as the limit is at least
the number of populated cells; every returned cluster's centroid (the
coordinate sums divided by the count) lies inside its reported bbox; and each
filtered feature is assigned to the grid cell (⌊lon/cellSize⌋, ⌊lat/cellSize⌋),
whose accumulator is present in the cluster map. -/
theorem getPoiClusters_spec (features : List GeoFeature) (bbox : Option Bbox)
    (zoom : ℚ) (limit : ℕ) :
    (GeoRoutes.sumFeatureCounts (GeoRoutes.getPoiClusters features bbox zoom limit) ≤
        (GeoRoutes.filterByBbox features bbox).length) ∧
    ((GeoRoutes.buildClusters (GeoRoutes.filterByBbox features bbox)
          (GeoRoutes.gridSizeForZoom zoom)).length ≤ limit →
      GeoRoutes.sumFeatureCounts (GeoRoutes.getPoiClusters features bbox zoom limit) =
        (GeoRoutes.filterByBbox features bbox).length) ∧
    (∀ cf ∈ GeoRoutes.getPoiClusters features bbox zoom limit,
      cf.bboxMinLon ≤ cf.lon ∧ cf.lon ≤ cf.bboxMaxLon ∧
      cf.bboxMinLat ≤ cf.lat ∧ cf.lat ≤ cf.bboxMaxLat) ∧
    (∀ f ∈ GeoRoutes.filterByBbox features bbox,
      jsMapGet (GeoRoutes.buildClusters (GeoRoutes.filterByBbox features bbox)
          (GeoRoutes.gridSizeForZoom zoom))
        (GeoRoutes.cellKey ⌊f.lon / GeoRoutes.gridSizeForZoom zoom⌋
          ⌊f.lat / GeoRoutes.gridSizeForZoom zoom⌋) ≠ none) := by
  set cs := GeoRoutes.gridSizeForZoom zoom with hcs
  set filtered := GeoRoutes.filterByBbox features bbox with hfiltered
  set clusters := GeoRoutes.buildClusters filtered cs with hclusters
  set sorted := (clusters.map Prod.snd).insertionSort
    (fun a b => b.count ≤ a.count) with hsorted
  have hout : GeoRoutes.getPoiClusters features bbox zoom limit =
      mapWithIdx (fun idx c => GeoRoutes.clusterToFeature zoom cs idx c) 0
        (sorted.take limit) := rfl
  have hfold := buildClusters_fold_spec cs filtered [] (by intro p hp; cases hp)
  have htotal : GeoRoutes.sumClusterCounts clusters = filtered.length := by
    have := hfold.2
    simpa [GeoRoutes.buildClusters, GeoRoutes.sumClusterCounts] using this
  have hperm : sorted.Perm (clusters.map Prod.snd) :=
    List.perm_insertionSort _ _
  have hsortedsum : (sorted.map fun c => c.count).sum =
      GeoRoutes.sumClusterCounts clusters := by
    have := (hperm.map fun c => c.count).sum_eq
    rw [this, List.map_map]
    rfl
  have hsortedlen : sorted.length = clusters.length := by
    rw [hperm.length_eq, List.length_map]
  have hsuminv : ∀ c ∈ sorted, GeoRoutes.ClusterBounds c ∧ 1 ≤ c.count := by
    intro c hc
    have hc2 : c ∈ clusters.map Prod.snd := hperm.mem_iff.mp hc
    rcases List.mem_map.mp hc2 with ⟨p, hp, rfl⟩
    exact hfold.1 p hp
  refine ⟨?_, ?_, ?_, ?_⟩
  · rw [hout, sum_counts_mapWithIdx]
    calc ((sorted.take limit).map fun c => c.count).sum
        ≤ ((sorted.take limit).map fun c => c.count).sum +
            ((sorted.drop limit).map fun c => c.count).sum := Nat.le_add_right _ _
      _ = (sorted.map fun c => c.count).sum := by
          rw [← List.sum_append, ← List.map_append, List.take_append_drop]
      _ = filtered.length := by rw [hsortedsum, htotal]
  · intro hlim
    rw [hout, sum_counts_mapWithIdx]
    rw [List.take_of_length_le (by omega : sorted.length ≤ limit)]
    rw [hsortedsum, htotal]
  · intro cf hcf
    rw [hout] at hcf
    obtain ⟨j, c, hc, rfl⟩ := mem_mapWithIdx _ _ _ _ hcf
    have hctake : c ∈ sorted := List.mem_of_mem_take hc
    obtain ⟨⟨hb1, hb2, hb3, hb4⟩, hcount⟩ := hsuminv c hctake
    have hcpos : (0 : ℚ) < (c.count : ℚ) := by exact_mod_cast hcount
    simp only [GeoRoutes.clusterToFeature]
    refine ⟨?_, ?_, ?_, ?_⟩
    · rw [le_div_iff hcpos]
      linarith [hb1]
    · rw [div_le_iff hcpos]
      linarith [hb2]
    · rw [le_div_iff hcpos]
      linarith [hb3]
    · rw [div_le_iff hcpos]
      linarith [hb4]
  · intro f hf
    exact buildClusters_cell_assigned cs filtered [] f hf

/-- Witness for C4: a concrete feature's grid cell is populated after
clustering. -/
theorem getPoiClusters_spec_witness :
    jsMapGet (GeoRoutes.buildClusters
        (GeoRoutes.filterByBbox [⟨100, 13, []⟩] none) (GeoRoutes.gridSizeForZoom 8))
      (GeoRoutes.cellKey ⌊(100 : ℚ) / GeoRoutes.gridSizeForZoom 8⌋
        ⌊(13 : ℚ) / GeoRoutes.gridSizeForZoom 8⌋) ≠ none :=
  (getPoiClusters_spec [⟨100, 13, []⟩] none 8 5).2.2.2 ⟨100, 13, []⟩
    (List.mem_singleton.mpr rfl)

end MapStack
